import Mathlib

set_option maxHeartbeats 1000000
set_option maxRecDepth 8192

/-!
Verification of the multi-model streaming relay implemented in
`src/app/api/chat/route.ts` (`POST`): the request dispatcher (model-fallback
loop over candidate model names), the SSE-to-text stream transcoder
(newline framing with a carry-over buffer, per-line payload handling), and
the trailing citation-footer synthesis.

Strings are modelled as `List Char` in the transcoder (character-level
framing matters there) and as `String` for request construction; network
chunks are byte lists (`List Nat`), decoded per chunk exactly as
`chunk.toString()` does at route.ts:144 (`utf8DecodeJs`, a model of
Node's UTF-8 decode with U+FFFD replacement).  The platform primitives
`fetch` and `JSON.parse` are inputs of the model: the per-model fetch
outcome is a function `String → Outcome`, and the JSON decoding of a
payload line (`JSON.parse` plus the optional-chaining field accesses) is a
function `List Char → Option GenData`.
-/

/-! ## Data model -/

/-- Web reference inside a grounding chunk: `c.web.title` and `c.web.uri`. -/
structure WebInfo where
  title : List Char
  uri : List Char
deriving DecidableEq

/-- One element of `groundingMetadata.groundingChunks`; the `web` field may
be absent (the code guards on `if (c.web)`). -/
structure GChunk where
  web : Option WebInfo
deriving DecidableEq

/-- Captured `groundingMetadata`: `webSearchQueries` and `groundingChunks`.
Absent fields are modelled as empty lists, matching the `|| []` defaults at
route.ts:175 and route.ts:182. -/
structure Meta where
  webSearchQueries : List (List Char)
  groundingChunks : List GChunk
deriving DecidableEq

/-- Result of `JSON.parse` on a payload line combined with the
optional-chaining accesses `data.candidates?.[0]?.content?.parts?.[0]?.text`
and `data.candidates?.[0]?.groundingMetadata`.  `none` at the outer level
models a `JSON.parse` failure (swallowed at route.ts:166). -/
structure GenData where
  text : Option (List Char)
  meta : Option Meta
deriving DecidableEq

/-- A decoder is the model of `JSON.parse` + envelope field access. -/
def Decoder : Type := List Char → Option GenData

/-! ## Newline framing (route.ts:140-148)

`buffer += chunkStr; const lines = buffer.split('\n'); buffer = lines.pop() || ''`
is modelled by `splitCR`, which returns the complete (newline-terminated)
lines together with the held remainder after the last newline. -/

/-- Prepend one character to a (complete-lines, remainder) pair. -/
def consCR (c : Char) (p : List (List Char) × List Char) :
    List (List Char) × List Char :=
  if c = '\n' then ([] :: p.1, p.2)
  else
    match p.1 with
    | [] => ([], c :: p.2)
    | l :: ls => ((c :: l) :: ls, p.2)

/-- `splitCR s = (complete lines of s, remainder after the last newline)`;
this is `s.split('\n')` with the popped last element held separately. -/
def splitCR : List Char → List (List Char) × List Char
  | [] => ([], [])
  | c :: cs => consCR c (splitCR cs)

/-- Merge a held remainder onto the front of a later split, as happens when
more input is appended after the remainder. -/
def mergeCR (r : List Char) (p : List (List Char) × List Char) :
    List (List Char) × List Char :=
  match p.1 with
  | [] => ([], r ++ p.2)
  | l :: ls => ((r ++ l) :: ls, p.2)

/-! ## Per-line payload handling (route.ts:150-170) -/

/-- The ECMAScript WhiteSpace and LineTerminator set stripped by
`String.prototype.trim`: TAB, LF, VT, FF, CR, SP, NBSP, OGHAM SPACE MARK,
EN QUAD through HAIR SPACE, LS, PS, NARROW NBSP, MEDIUM MATHEMATICAL
SPACE, IDEOGRAPHIC SPACE and ZWNBSP. -/
def jsWhitespace (c : Char) : Bool :=
  let n := c.toNat
  n == 0x9 || n == 0xA || n == 0xB || n == 0xC || n == 0xD ||
    n == 0x20 || n == 0xA0 || n == 0x1680 ||
    (decide (0x2000 ≤ n) && decide (n ≤ 0x200A)) ||
    n == 0x2028 || n == 0x2029 || n == 0x202F || n == 0x205F ||
    n == 0x3000 || n == 0xFEFF

/-- JavaScript `String.prototype.trim` on a character list. -/
def trimChars (l : List Char) : List Char :=
  ((l.dropWhile jsWhitespace).reverse.dropWhile jsWhitespace).reverse

/-- `line.trim().startsWith('data: ')` guard plus `line.trim().slice(6)`:
returns the JSON part of a payload line, or `none` for non-payload lines. -/
def lineData (line : List Char) : Option (List Char) :=
  let t := trimChars line
  if (("data: ").data).isPrefixOf t then some (t.drop 6) else none

/-- Line-processing state threaded through the payload loop: the captured
grounding metadata and the list of text chunks enqueued so far. -/
structure PState where
  meta : Option Meta
  out : List (List Char)
deriving DecidableEq

/-- Process one complete line (route.ts:150-169): non-payload lines and the
`[DONE]` sentinel are skipped, parse failures are swallowed, metadata is
captured with overwrite, and a truthy (nonempty) text delta is enqueued. -/
def procLine (dec : Decoder) (ps : PState) (line : List Char) : PState :=
  match lineData line with
  | none => ps
  | some jsonStr =>
    if jsonStr = ("[DONE]").data then ps
    else
      match dec jsonStr with
      | none => ps
      | some d =>
        let ps1 := match d.meta with
          | some m => { ps with meta := some m }
          | none => ps
        match d.text with
        | some t => if t ≠ [] then { ps1 with out := ps1.out ++ [t] } else ps1
        | none => ps1

/-- The metadata contribution of a single line: `some m` exactly when the
line is a payload line whose decoded envelope carries grounding metadata. -/
def lineMeta (dec : Decoder) (line : List Char) : Option Meta :=
  match lineData line with
  | none => none
  | some jsonStr =>
    if jsonStr = ("[DONE]").data then none
    else
      match dec jsonStr with
      | none => none
      | some d => d.meta

/-- Transcoder state: the carry-over buffer plus the line-processing state. -/
structure TState where
  buffer : List Char
  meta : Option Meta
  out : List (List Char)
deriving DecidableEq

/-- Initial transcoder state (route.ts:140-141). -/
def initState : TState := ⟨[], none, []⟩

/-- Consume the decoded text `chunkStr` of one network chunk
(route.ts:144-171): append to the buffer, split on newlines, hold the last
(possibly incomplete) segment back, and process each complete line.  The
byte-to-text decode `chunk.toString()` performed per chunk at route.ts:144
is modelled separately by `feedBytes` below. -/
def feedChunk (dec : Decoder) (st : TState) (chunk : List Char) : TState :=
  let p := splitCR (st.buffer ++ chunk)
  let q := List.foldl (procLine dec) ⟨st.meta, st.out⟩ p.1
  ⟨p.2, q.meta, q.out⟩

/-- Run the transcoder over a whole sequence of network chunks. -/
def transcode (dec : Decoder) (chunks : List (List Char)) : TState :=
  List.foldl (feedChunk dec) initState chunks

/-- The metadata contributions of all complete lines of a stream, in order. -/
def lineMetasOf (dec : Decoder) (s : List Char) : List Meta :=
  ((splitCR s).1).filterMap (lineMeta dec)

/-! ## Citation footer synthesis (route.ts:174-195) -/

/-- Decimal digits of a number, as the characters `toString` would emit. -/
def natChars (n : Nat) : List Char := (toString n).data

/-- The `**Search Queries Used:**` block (route.ts:178-180). -/
def queriesBlock (qs : List (List Char)) : List Char :=
  if qs.length > 0 then
    ("\n\n**Search Queries Used:**\n").data ++
      List.intercalate (("\n").data) (qs.map (fun q => ("* ").data ++ q)) ++
      ("\n").data
  else []

/-- One reference line `*   [n] [title](uri)` followed by a newline
(route.ts:187). -/
def refLine (n : Nat) (w : WebInfo) : List Char :=
  ("*   [").data ++ natChars n ++ ("] [").data ++ w.title ++
    ("](").data ++ w.uri ++ (")\n").data

/-- The body of the `forEach` over `groundingChunks` (route.ts:185-189):
`i` is the zero-based index of the next chunk; chunks without `web` emit
nothing but still advance the index. -/
def refsBlockGo : Nat → List GChunk → List Char
  | _, [] => []
  | i, c :: cs =>
    (match c.web with
     | some w => refLine (i + 1) w
     | none => []) ++ refsBlockGo (i + 1) cs

/-- The `**Reference Sources:**` block (route.ts:182-190). -/
def refsBlock (cs : List GChunk) : List Char :=
  if cs.length > 0 then
    ("\n**Reference Sources:**\n").data ++ refsBlockGo 0 cs
  else []

/-- The full `footerText` accumulated at route.ts:176-190. -/
def footerText (m : Meta) : List Char :=
  queriesBlock m.webSearchQueries ++ refsBlock m.groundingChunks

/-- The chunks enqueued after the upstream stream ends (route.ts:174-195):
nothing when no metadata was captured or the footer text is empty,
otherwise the separator plus the footer text. -/
def footerEmit (meta : Option Meta) : List (List Char) :=
  match meta with
  | none => []
  | some m => if footerText m = [] then [] else [("\n\n---\n").data ++ footerText m]

/-! ## Request dispatcher (route.ts:55-137) -/

/-- Outcome of one `fetch` call for one candidate model: `ok` is a success
response, `httpErr` a non-ok response with its status and body text, and
`netErr` a rejected promise (transport failure) with its message. -/
inductive Outcome
  | ok
  | httpErr (status : Nat) (body : List Char)
  | netErr (msg : List Char)
deriving DecidableEq

/-- `response.status === 429 || response.status === 404 || response.status === 503`
(route.ts:119). -/
def retryableStatus (s : Nat) : Bool :=
  s == 429 || s == 404 || s == 503

/-- `Model ${model}: ${response.status} - ${errorText}` (route.ts:115). -/
def attemptErrorMsg (m : String) (status : Nat) (body : List Char) : List Char :=
  ("Model ").data ++ m.data ++ (": ").data ++ natChars status ++
    (" - ").data ++ body

/-- `Gemini API Error: All models failed. Details: ${errorLog.join(' | ')}`
(route.ts:117). -/
def aggErrorMsg (log : List (List Char)) : List Char :=
  ("Gemini API Error: All models failed. Details: ").data ++
    List.intercalate ((" | ").data) log

/-- Result of the fallback loop: the models attempted in order, the winning
model if a fetch succeeded, and the message of `lastError` at loop exit. -/
structure DispatchResult where
  attempted : List String
  winner : Option String
  errMsg : Option (List Char)
deriving DecidableEq

/-- The `for (const model of models)` loop (route.ts:55-129).  On a non-ok
response the error is logged and `lastError` set; a retryable status
`continue`s; any other status `throw lastError`, which is caught by the
inner `catch` (route.ts:124) — the same handler as a transport error — so
it sets `lastError = e` and `break`s only when
`models.indexOf(model) === models.length - 1`, otherwise iteration
proceeds to the next candidate. -/
def dispatchGo (f : String → Outcome) (models : List String) :
    List String → List String → List (List Char) → Option (List Char) →
    DispatchResult
  | [], attempted, _log, lastError => ⟨attempted, none, lastError⟩
  | m :: rest, attempted, log, _lastError =>
    match f m with
    | Outcome.ok => ⟨attempted ++ [m], some m, none⟩
    | Outcome.httpErr status body =>
      let log1 := log ++ [attemptErrorMsg m status body]
      let le1 := some (aggErrorMsg log1)
      if retryableStatus status then
        dispatchGo f models rest (attempted ++ [m]) log1 le1
      else
        if List.indexOf m models = models.length - 1 then
          ⟨attempted ++ [m], none, le1⟩
        else
          dispatchGo f models rest (attempted ++ [m]) log1 le1
    | Outcome.netErr msg =>
      if List.indexOf m models = models.length - 1 then
        ⟨attempted ++ [m], none, some msg⟩
      else
        dispatchGo f models rest (attempted ++ [m]) log (some msg)

/-- Run the fallback loop from the initial state (route.ts:47-52). -/
def dispatch (f : String → Outcome) (models : List String) : DispatchResult :=
  dispatchGo f models models [] [] none

/-- `lastError?.message || 'All models failed.'` (route.ts:133). -/
def failMessage (d : DispatchResult) : List Char :=
  match d.errMsg with
  | none => ("All models failed.").data
  | some m => if m = [] then ("All models failed.").data else m

/-- The fixed candidate model list (route.ts:41). -/
def geminiModels : List String :=
  ["gemini-2.0-flash", "gemini-2.0-flash-thinking-exp-01-21",
   "gemini-1.5-pro", "gemini-1.5-pro-002", "gemini-1.5-pro-latest"]

/-! ## The relay invocation (route.ts:45-206) -/

/-- One event of the upstream response body iteration: either a data chunk
arrives, or the iteration raises an error (modelling a rejected read in
`for await`, which jumps to the outer catch at route.ts:200). -/
inductive UpEv
  | chunk (s : List Char)
  | raise (msg : List Char)
deriving DecidableEq

/-- Actions performed on the output stream controller. -/
inductive CtrlAct
  | emit (s : List Char)
  | close
deriving DecidableEq

/-- Iterate the upstream body (route.ts:143-171), stopping at the first
raised error; returns the transcoder state reached and the error, if any. -/
def runBody (dec : Decoder) : TState → List UpEv → TState × Option (List Char)
  | st, [] => (st, none)
  | st, UpEv.chunk c :: rest => runBody dec (feedChunk dec st c) rest
  | st, UpEv.raise m :: _ => (st, some m)

/-- The complete trace of controller actions of one relay invocation
(route.ts:46-204): dispatcher failure emits one error chunk; otherwise the
body is transcoded (text deltas emitted as they are decoded), then either
the mid-stream error marker (outer catch, route.ts:202) or the citation
footer (route.ts:174-195) is emitted; every path then closes the
controller exactly at its end (route.ts:135, 197, 203). -/
def relayTrace (f : String → Outcome) (models : List String) (dec : Decoder)
    (events : List UpEv) : List CtrlAct :=
  (match (dispatch f models).winner with
   | none =>
     [CtrlAct.emit (("❌ Error: ").data ++ failMessage (dispatch f models))]
   | some _ =>
     match runBody dec initState events with
     | (st, some m) =>
       st.out.map CtrlAct.emit ++
         [CtrlAct.emit (("\n\n❌ Internal Error: ").data ++ m)]
     | (st, none) =>
       st.out.map CtrlAct.emit ++ (footerEmit st.meta).map CtrlAct.emit) ++
  [CtrlAct.close]

/-- Number of `close` actions in a trace. -/
def closeCount : List CtrlAct → Nat
  | [] => 0
  | CtrlAct.close :: r => closeCount r + 1
  | CtrlAct.emit _ :: r => closeCount r

/-- Concatenated text of the emitted chunks of a trace. -/
def emittedText : List CtrlAct → List Char
  | [] => []
  | CtrlAct.emit s :: r => s ++ emittedText r
  | CtrlAct.close :: r => emittedText r

/-! ## The HTTP operation (route.ts:5-217) -/

/-- JavaScript falsiness of `process.env.GEMINI_API_KEY`: true when the
variable is absent or set to the empty string (`if (!apiKey)`,
route.ts:15). -/
def keyFalsy : Option String → Bool
  | none => true
  | some s => s == ""

/-- The response of the operation: a structured JSON error with an HTTP
status, or a streamed body described by its controller action trace. -/
inductive PostResult
  | jsonError (error : String) (status : Nat)
  | streamBody (trace : List CtrlAct)
deriving DecidableEq

/-- The `POST` handler (route.ts:5-217) after body parsing: a falsy
credential returns the structured JSON error before the output stream is
constructed (route.ts:15-21); otherwise the streamed body is returned and
the relay runs over the fixed model list (route.ts:41-208). -/
def POST (apiKey : Option String) (f : String → Outcome) (dec : Decoder)
    (events : List UpEv) : PostResult :=
  if keyFalsy apiKey then
    PostResult.jsonError ("GEMINI_API_KEY is not defined in environment variables") 500
  else
    PostResult.streamBody (relayTrace f geminiModels dec events)

/-- Whether a response is the structured JSON error. -/
def isJsonError : PostResult → Bool
  | PostResult.jsonError _ _ => true
  | PostResult.streamBody _ => false

/-! ## Outbound request construction (route.ts:24-103) -/

/-- One turn sent by the caller (`{ role, text }`). -/
structure ChatMsg where
  role : String
  text : String
deriving DecidableEq

/-- One element of the provider `contents` array; the single part is its
text (`parts: [{ text }]`). -/
structure Content where
  role : String
  text : String
deriving DecidableEq

/-- The fixed instruction appended to the caller's prompt (route.ts:32-36);
`\n\n(IMPORTANT: ` is followed by a literal line break in the template. -/
def promptExtra : String :=
  "\n\n(IMPORTANT: \n1. Start with <thinking> block.\n2. Search queries MUST be in ENGLISH for international coverage.\n3. Final Answer MUST be in CHINESE.\n4. You MUST include a '## Reference Sources' section with 20+ citations, manually appending English sources if needed.)"

/-- The fixed system instruction text (route.ts:67-96). -/
def systemInstructionText : String :=
  "You are an expert Research Assistant for a Chinese analyst.

**CORE DIRECTIVE**
1. **SEARCH PHASE (ENGLISH):** You MUST search in **ENGLISH** to find authoritative international data (NASA, IEA, Bloomberg, etc.). Do NOT use Chinese search queries.
2. **OUTPUT PHASE (CHINESE):** You MUST translate and synthesize all findings into **CHINESE** for the final report.

**MANDATORY RESPONSE STRUCTURE**
<thinking>
1.  **Analyze Request:** (Identify key topics)
2.  **Search Strategy (ENGLISH):** (List 5-10 ENGLISH search queries. e.g. \"Global Space Solar Power market size\")
3.  **Synthesis (CHINESE):** (Plan the structure of the Chinese report)
4.  **Language Verification:** (Confirm the Final Answer will be 100% Chinese)
</thinking>

[Your Final Answer in CHINESE]

[Required: Manual Reference Section]

**CRITICAL RULES:**
1.  **Language**: 
    - **Final Output MUST be CHINESE**.
    - **NO ENGLISH** in the main body (except for proper nouns like 'SpaceX').
2.  **Citations**:
    - **Quantity**: 20+ Total References.
    - **Quality**: **International sources are mandatory**.
    - **Manual Fallback**: If the automatic tool provides Chinese links, you **MUST** manually append 10-15 **English/International URLs** at the bottom under '## Reference Sources'.
    - **Format**:
        - [1] [NASA: Space Solar Power](https://www.nasa.gov/...)
        - [2] [IEA: Renewable 2023](https://www.iea.org/...)
"

/-- Build the `contents` array (route.ts:24-37): prior turns reshaped to
provider roles, then the new prompt with the fixed instruction appended. -/
def buildContents (message : String) (history : List ChatMsg) : List Content :=
  history.map (fun msg =>
    ⟨if msg.role = ("user" : String) then ("user" : String) else ("model" : String),
     msg.text⟩) ++
  [⟨("user" : String), message ++ promptExtra⟩]

/-- The JSON body of one upstream request (route.ts:63-98): the contents,
the `tools: [{ googleSearch: {} }]` capability flag, and the fixed system
instruction. -/
structure GenBody where
  contents : List Content
  googleSearchTool : Bool
  systemInstruction : String
deriving DecidableEq

/-- The request body as built inside the candidate loop; it does not
depend on the candidate model. -/
def requestBody (message : String) (history : List ChatMsg) : GenBody :=
  ⟨buildContents message history, true, systemInstructionText⟩

/-- The per-candidate request URL (route.ts:58). -/
def requestUrl (baseUrl model apiKey : String) : String :=
  baseUrl ++ "/v1beta/models/" ++ model ++ ":streamGenerateContent?key=" ++
    apiKey ++ "&alt=sse"

/-- One upstream request: URL plus body. -/
structure UpReq where
  url : String
  body : GenBody
deriving DecidableEq

/-- The request issued for one candidate model inside the loop
(route.ts:58-99). -/
def attemptRequest (baseUrl apiKey message : String) (history : List ChatMsg)
    (model : String) : UpReq :=
  ⟨requestUrl baseUrl model apiKey, requestBody message history⟩

/-- Last element of a list of captures, falling back to a previous capture. -/
def lastOr {α : Type} (l : List α) (d : Option α) : Option α :=
  match l.getLast? with
  | some x => some x
  | none => d

/-! ## Concrete example inputs used by witnesses -/

/-- Example metadata carrying one search query. -/
def meta1 : Meta := ⟨[("q1").data], []⟩

/-- Example metadata carrying one web-bearing grounding chunk. -/
def meta2 : Meta := ⟨[], [⟨some ⟨("T").data, ("U").data⟩⟩]⟩

/-- A small concrete decoder used as a witness input: payload `A` is a
text-only record, `M1` a metadata-only record, `M2` a record carrying both
text and metadata. -/
def decEx : Decoder := fun s =>
  if s = ("A").data then some ⟨some (("a!").data), none⟩
  else if s = ("M1").data then some ⟨none, some meta1⟩
  else if s = ("M2").data then some ⟨some (("b!").data), some meta2⟩
  else none

/-- A decoder on which every payload fails to parse. -/
def decNone : Decoder := fun _ => none

/-- A fetch environment where every candidate succeeds. -/
def fOk : String → Outcome := fun _ => Outcome.ok

/-- A fetch environment where every candidate is rate-limited. -/
def f429 : String → Outcome := fun _ => Outcome.httpErr 429 (("rate").data)

/-- A fetch environment where the first candidate gets a non-retryable
HTTP 500 and every other candidate succeeds. -/
def f500 : String → Outcome := fun m =>
  if m = ("gemini-2.0-flash" : String) then Outcome.httpErr 500 (("boom").data)
  else Outcome.ok

/-- Modelled from the spec words (not from the source) for comparison with
the source-derived listing: the reference-sources block "lists every
captured reference as `[n] [title](uri)`, numbered from 1 in the order
captured" — that is, the web-bearing references in capture order, with
consecutive numbers starting at 1. -/
def specRefsBlock (cs : List GChunk) : List Char :=
  (((cs.filterMap GChunk.web).enum).map (fun p => refLine (p.1 + 1) p.2)).flatten

/-! ## Byte-level chunk decoding (route.ts:144)

The `for await` loop iterates the response body in byte chunks and decodes
each one separately with `chunk.toString()`.  Node's `Buffer.toString('utf8')`
performs UTF-8 decoding with U+FFFD replacement, per the WHATWG streaming
algorithm: a decoder state of (code point so far, continuation bytes still
needed, allowed range for the next byte); an out-of-range byte emits one
replacement for the pending maximal subpart and is then reprocessed as a
fresh lead; a sequence left incomplete at the end of the buffer emits one
replacement. -/

/-- The replacement character U+FFFD. -/
def replChar : Char := Char.ofNat 0xFFFD

/-- Streaming UTF-8 decoder state: emitted characters, code point bits
accumulated so far, continuation bytes still needed, and the admissible
range for the next continuation byte. -/
structure U8 where
  out : List Char
  code : Nat
  needed : Nat
  lo : Nat
  hi : Nat

/-- Classify a byte arriving with no sequence pending: ASCII is emitted,
valid lead bytes open a sequence (with the WHATWG first-continuation
boundaries excluding overlongs and surrogates), and any other byte —
an orphan continuation byte, 0xC0/0xC1 or 0xF5..0xFF — emits U+FFFD. -/
def utf8Start (s : U8) (b : Nat) : U8 :=
  if b ≤ 0x7F then { s with out := s.out ++ [Char.ofNat b] }
  else if 0xC2 ≤ b ∧ b ≤ 0xDF then
    { s with code := b - 0xC0, needed := 1, lo := 0x80, hi := 0xBF }
  else if b = 0xE0 then { s with code := 0, needed := 2, lo := 0xA0, hi := 0xBF }
  else if b = 0xED then { s with code := 0xD, needed := 2, lo := 0x80, hi := 0x9F }
  else if 0xE1 ≤ b ∧ b ≤ 0xEF then
    { s with code := b - 0xE0, needed := 2, lo := 0x80, hi := 0xBF }
  else if b = 0xF0 then { s with code := 0, needed := 3, lo := 0x90, hi := 0xBF }
  else if b = 0xF4 then { s with code := 4, needed := 3, lo := 0x80, hi := 0x8F }
  else if 0xF1 ≤ b ∧ b ≤ 0xF3 then
    { s with code := b - 0xF0, needed := 3, lo := 0x80, hi := 0xBF }
  else { s with out := s.out ++ [replChar] }

/-- Feed one byte to the streaming decoder. -/
def utf8Step (s : U8) (b : Nat) : U8 :=
  if s.needed = 0 then utf8Start s b
  else if s.lo ≤ b ∧ b ≤ s.hi then
    let code := s.code * 64 + (b - 0x80)
    if s.needed = 1 then
      { out := s.out ++ [Char.ofNat code], code := 0, needed := 0, lo := 0x80, hi := 0xBF }
    else { s with code := code, needed := s.needed - 1, lo := 0x80, hi := 0xBF }
  else
    utf8Start { s with out := s.out ++ [replChar], needed := 0 } b

/-- `Buffer.toString('utf8')` on one chunk: decode all bytes, then emit one
U+FFFD if a sequence is left incomplete at the end of the chunk. -/
def utf8DecodeJs (bytes : List Nat) : List Char :=
  let s := bytes.foldl utf8Step ⟨[], 0, 0, 0x80, 0xBF⟩
  if s.needed = 0 then s.out else s.out ++ [replChar]

/-- Standard UTF-8 encoding of one scalar value (used to build wire bytes
of logical upstream content). -/
def utf8EncodeChar (c : Char) : List Nat :=
  let n := c.toNat
  if n ≤ 0x7F then [n]
  else if n ≤ 0x7FF then [0xC0 + n / 64, 0x80 + n % 64]
  else if n ≤ 0xFFFF then [0xE0 + n / 4096, 0x80 + n / 64 % 64, 0x80 + n % 64]
  else [0xF0 + n / 262144, 0x80 + n / 4096 % 64, 0x80 + n / 64 % 64, 0x80 + n % 64]

/-- UTF-8 encoding of a character sequence. -/
def utf8Encode (s : List Char) : List Nat := (s.map utf8EncodeChar).flatten

/-- One iteration of the byte-level loop (route.ts:143-148): the network
chunk is decoded on its own with `chunk.toString()` and the resulting text
is appended to the carry-over buffer and framed. -/
def feedBytes (dec : Decoder) (st : TState) (chunk : List Nat) : TState :=
  feedChunk dec st (utf8DecodeJs chunk)

/-- Run the transcoder over a sequence of network byte chunks, exactly as
the code composes it: per-chunk decode, then character-level framing. -/
def transcodeBytes (dec : Decoder) (chunks : List (List Nat)) : TState :=
  List.foldl (feedBytes dec) initState chunks

/-! ## A concrete upstream record whose bytes are split inside a character -/

/-- The character `中` (U+4E2D); its UTF-8 encoding is 0xE4 0xB8 0xAD. -/
def zhongChar : Char := Char.ofNat 0x4E2D

/-- The payload text up to the opening quote of the text delta. -/
def jsonPre : List Char :=
  ("\x7b\"candidates\":[\x7b\"content\":\x7b\"parts\":[\x7b\"text\":\"").data

/-- The payload text after the closing quote of the text delta. -/
def jsonPost : List Char := ("\"\x7d]\x7d\x7d]\x7d").data

/-- The upstream payload carrying the text delta `中`. -/
def jsonZhong : List Char := jsonPre ++ [zhongChar] ++ jsonPost

/-- The same payload as produced by per-chunk decoding when the three
bytes of `中` are split across two chunks: three U+FFFD characters in
place of the one intended character. -/
def jsonMangled : List Char := jsonPre ++ [replChar, replChar, replChar] ++ jsonPost

/-- A decoder agreeing with `JSON.parse` plus the envelope field accesses
on the two payloads above: both are valid JSON (U+FFFD is an ordinary
character inside a JSON string), with text deltas `中` and three
replacement characters respectively, and no grounding metadata. -/
def decZh : Decoder := fun s =>
  if s = jsonZhong then some ⟨some [zhongChar], none⟩
  else if s = jsonMangled then some ⟨some [replChar, replChar, replChar], none⟩
  else none

/-- The wire bytes of the upstream event line carrying the delta `中`. -/
def sseBytes : List Nat :=
  utf8Encode (("data: ").data ++ jsonZhong ++ [('\n' : Char)])

/-- The first part of the wire bytes when the delivery is cut between the
first and second byte of `中`. -/
def sseChunkA : List Nat := utf8Encode (("data: ").data ++ jsonPre) ++ [0xE4]

/-- The second part of that delivery. -/
def sseChunkB : List Nat :=
  [0xB8, 0xAD] ++ utf8Encode (jsonPost ++ [('\n' : Char)])

/-! ## Helper lemmas: newline framing algebra -/

/-- Sanity check: `splitCR` agrees with `'ab\ncd\n\nef'.split('\n')` with the
last element popped. -/
theorem splitCR_sample :
    splitCR (("ab\ncd\n\nef").data) = ([("ab").data, ("cd").data, []], ("ef").data) := by
  decide

theorem mergeCR_nil (p : List (List Char) × List Char) : mergeCR [] p = p := by
  cases p with
  | mk a b => cases a <;> simp [mergeCR]

theorem splitCR_append (a b : List Char) :
    splitCR (a ++ b) =
      ((splitCR a).1 ++ (mergeCR (splitCR a).2 (splitCR b)).1,
       (mergeCR (splitCR a).2 (splitCR b)).2) := by
  induction a with
  | nil => simp [splitCR, mergeCR_nil]
  | cons c cs ih =>
    rcases h1 : splitCR cs with ⟨l1, r1⟩
    rcases h2 : splitCR b with ⟨l2, r2⟩
    rw [h1, h2] at ih
    by_cases hc : c = '\n'
    · subst hc
      cases l1 <;> cases l2 <;>
        simp_all [splitCR, consCR, mergeCR]
    · cases l1 <;> cases l2 <;>
        simp_all [splitCR, consCR, mergeCR, hc]

theorem splitCR_rest_noNl (x : List Char) : '\n' ∉ (splitCR x).2 := by
  induction x with
  | nil => simp [splitCR]
  | cons c cs ih =>
    by_cases hc : c = '\n'
    · subst hc; simpa [splitCR, consCR] using ih
    · rcases h1 : splitCR cs with ⟨l1, r1⟩
      rw [h1] at ih
      cases l1 <;> simp_all [splitCR, consCR, hc, Ne.symm hc]

theorem splitCR_of_noNl (x : List Char) (h : '\n' ∉ x) : splitCR x = ([], x) := by
  induction x with
  | nil => rfl
  | cons c cs ih =>
    have hc : c ≠ '\n' := by
      intro hcc
      exact h (hcc ▸ List.mem_cons_self c cs)
    have ih2 := ih (fun hm => h (List.mem_cons_of_mem c hm))
    simp [splitCR, ih2, consCR, hc]

/-! ## Helper lemmas: chunk composition -/

theorem feedChunk_append (dec : Decoder) (st : TState) (a b : List Char) :
    feedChunk dec (feedChunk dec st a) b = feedChunk dec st (a ++ b) := by
  simp only [feedChunk]
  rw [splitCR_append ((splitCR (st.buffer ++ a)).2) b,
    splitCR_of_noNl _ (splitCR_rest_noNl (st.buffer ++ a))]
  rw [show st.buffer ++ (a ++ b) = (st.buffer ++ a) ++ b from (List.append_assoc _ _ _).symm,
    splitCR_append (st.buffer ++ a) b]
  simp [List.foldl_append]

theorem foldl_feedChunk_eq (dec : Decoder) (st : TState) (chunks : List (List Char))
    (h : '\n' ∉ st.buffer) :
    List.foldl (feedChunk dec) st chunks = feedChunk dec st chunks.flatten := by
  induction chunks generalizing st with
  | nil =>
    simp only [List.foldl_nil, List.flatten_nil]
    rw [show feedChunk dec st [] = st from ?_]
    simp [feedChunk, splitCR_of_noNl _ (by simpa using h)]
  | cons c cs ih =>
    simp only [List.foldl_cons, List.flatten_cons]
    rw [ih _ ?_, feedChunk_append]
    simpa [feedChunk] using splitCR_rest_noNl (st.buffer ++ c)

/-! ## Helper lemmas: metadata capture is last-wins -/


theorem lastOr_nil {α : Type} (d : Option α) : lastOr [] d = d := rfl

theorem lastOr_cons {α : Type} (x : α) (xs : List α) (d : Option α) :
    lastOr (x :: xs) d = lastOr xs (some x) := by
  cases xs with
  | nil => rfl
  | cons y ys =>
    simp only [lastOr, List.getLast?_cons_cons]
    cases h : (y :: ys).getLast? with
    | some z => rfl
    | none =>
      rw [List.getLast?_eq_none_iff] at h
      exact absurd h (by simp)

theorem procLine_meta (dec : Decoder) (ps : PState) (l : List Char) :
    (procLine dec ps l).meta =
      match lineMeta dec l with
      | some m => some m
      | none => ps.meta := by
  unfold procLine lineMeta
  rcases h : lineData l with _ | j
  · rfl
  · by_cases hd : j = ("[DONE]").data
    · simp [hd]
    · simp only [if_neg hd]
      rcases hdec : dec j with _ | d
      · rfl
      · rcases d with ⟨t, m⟩
        rcases m with _ | m <;> rcases t with _ | t <;> simp_all <;> split <;> rfl

theorem foldl_procLine_meta (dec : Decoder) (lines : List (List Char)) :
    ∀ ps : PState,
      (List.foldl (procLine dec) ps lines).meta =
        lastOr (lines.filterMap (lineMeta dec)) ps.meta := by
  induction lines with
  | nil => intro ps; rfl
  | cons l ls ih =>
    intro ps
    rw [List.foldl_cons, ih]
    rcases h : lineMeta dec l with _ | m
    · simp [List.filterMap_cons, h, procLine_meta, lastOr]
    · simp [List.filterMap_cons, h, procLine_meta, lastOr_cons]

theorem transcode_meta (dec : Decoder) (chunks : List (List Char)) :
    (transcode dec chunks).meta = lastOr (lineMetasOf dec chunks.flatten) none := by
  unfold transcode
  rw [foldl_feedChunk_eq dec initState chunks (by simp [initState])]
  simp [feedChunk, initState, lineMetasOf, foldl_procLine_meta]

/-! ## Helper lemmas: controller traces -/

theorem closeCount_append (a b : List CtrlAct) :
    closeCount (a ++ b) = closeCount a + closeCount b := by
  induction a with
  | nil => simp [closeCount]
  | cons x xs ih =>
    cases x with
    | emit s => simp [closeCount, ih]
    | close => simp [closeCount, ih]; omega

theorem closeCount_map_emit (l : List (List Char)) :
    closeCount (l.map CtrlAct.emit) = 0 := by
  induction l with
  | nil => rfl
  | cons x xs ih => simpa [closeCount] using ih

theorem emittedText_append (a b : List CtrlAct) :
    emittedText (a ++ b) = emittedText a ++ emittedText b := by
  induction a with
  | nil => rfl
  | cons x xs ih => cases x <;> simp [emittedText, ih]

theorem emittedText_map_emit (l : List (List Char)) :
    emittedText (l.map CtrlAct.emit) = l.flatten := by
  induction l with
  | nil => rfl
  | cons x xs ih => simp [emittedText, ih]

theorem runBody_chunks (dec : Decoder) (chunks : List (List Char)) :
    ∀ st : TState,
      runBody dec st (chunks.map UpEv.chunk) =
        (List.foldl (feedChunk dec) st chunks, none) := by
  induction chunks with
  | nil => intro st; rfl
  | cons c cs ih => intro st; simpa [runBody] using ih (feedChunk dec st c)

/-! ## Helper lemmas: the dispatcher under all-retryable failures -/

theorem aggErrorMsg_ne_nil (log : List (List Char)) : aggErrorMsg log ≠ [] := by
  unfold aggErrorMsg
  intro h
  rw [List.append_eq_nil] at h
  exact absurd h.1 (by decide)

theorem dispatchGo_cons_retryable (f : String → Outcome) (models : List String)
    (m : String) (rest attempted : List String) (log : List (List Char))
    (le : Option (List Char))
    (hf : f m = Outcome.httpErr (stf : Nat) (bdf : List Char))
    (hr : retryableStatus stf = true) :
    dispatchGo f models (m :: rest) attempted log le =
      dispatchGo f models rest (attempted ++ [m])
        (log ++ [attemptErrorMsg m stf bdf])
        (some (aggErrorMsg (log ++ [attemptErrorMsg m stf bdf]))) := by
  conv_lhs => rw [dispatchGo]
  rw [hf]
  simp [hr]

theorem dispatchGo_all_retryable (f : String → Outcome) (models : List String)
    (stf : String → Nat) (bdf : String → List Char) (rem : List String) :
    ∀ (m : String) (attempted : List String) (log : List (List Char))
      (le : Option (List Char)),
      (∀ x ∈ m :: rem, f x = Outcome.httpErr (stf x) (bdf x) ∧
        retryableStatus (stf x) = true) →
      dispatchGo f models (m :: rem) attempted log le =
        ⟨attempted ++ m :: rem, none,
         some (aggErrorMsg
           (log ++ (m :: rem).map (fun x => attemptErrorMsg x (stf x) (bdf x))))⟩ := by
  induction rem with
  | nil =>
    intro m attempted log le h
    obtain ⟨hf, hr⟩ := h m (List.mem_cons_self m [])
    simp [dispatchGo, hf, hr]
  | cons m2 rest ih =>
    intro m attempted log le h
    obtain ⟨hf, hr⟩ := h m (List.mem_cons_self m (m2 :: rest))
    rw [dispatchGo_cons_retryable f models m (m2 :: rest) attempted log le hf hr]
    rw [ih m2 (attempted ++ [m]) (log ++ [attemptErrorMsg m (stf m) (bdf m)])
      (some (aggErrorMsg (log ++ [attemptErrorMsg m (stf m) (bdf m)])))
      (fun x hx => h x (List.mem_cons_of_mem m hx))]
    simp

/-! ## Further helper lemmas -/

theorem splitCR_terminal_nl (y : List Char) : (splitCR (y ++ ['\n'])).2 = [] := by
  rw [splitCR_append]
  rcases h : (splitCR y).1 with _ | ⟨l, ls⟩ <;>
    simp [splitCR, consCR, mergeCR, h]

theorem feedChunk_buffer (dec : Decoder) (st : TState) (chunk : List Char) :
    (feedChunk dec st chunk).buffer = (splitCR (st.buffer ++ chunk)).2 := rfl

theorem feedChunk_noNl (dec : Decoder) (st : TState) (tail : List Char)
    (hb : st.buffer = []) (h : '\n' ∉ tail) :
    feedChunk dec st tail = { st with buffer := tail } := by
  unfold feedChunk
  rw [hb]
  simp [splitCR_of_noNl tail h]


/-! ## Claims about the stream transcoder -/

/-- Character-aligned chunking invariance: for every way of splitting the
decoded character content at character boundaries, the transcoder reaches
exactly the state of single-chunk delivery.  This is the strongest
invariance the line-buffering machinery achieves; it fails at the byte
level because each network chunk is decoded on its own (see the C2
theorem below). -/
theorem transcode_char_chunking_invariance (dec : Decoder) (chunks : List (List Char)) :
    transcode dec chunks = transcode dec [chunks.flatten] := by
  rw [transcode, transcode,
    foldl_feedChunk_eq dec initState chunks (by simp [initState])]
  simp

/-- C2: the claimed byte-level chunking invariance fails on the code, and
the spec is the intent — `chunk.toString()` at route.ts:144 decodes each
network chunk separately, so a split inside a multi-byte UTF-8 character
mangles it into replacement characters.  Concretely: the wire bytes of
`data: ` followed by the payload carrying the text delta `中`, cut
between the first and second byte of `中`, are a two-chunk delivery of
exactly the single-chunk bytes, yet the caller receives three U+FFFD
characters instead of `中` — chunking alters the output. -/
theorem c2_mid_char_split_alters_output :
    sseChunkA ++ sseChunkB = sseBytes ∧
      (transcodeBytes decZh [sseBytes]).out = [[zhongChar]] ∧
      (transcodeBytes decZh [sseChunkA, sseChunkB]).out =
        [[replChar, replChar, replChar]] ∧
      (transcodeBytes decZh [sseChunkA, sseChunkB]).out ≠
        (transcodeBytes decZh [sseBytes]).out := by
  refine ⟨by decide, by decide, by decide, by decide⟩

/-- C6: when at least two payload records carry grounding metadata, the
metadata captured by the transcoder is exactly that of the last such
record — each capture overwrites the previous one. -/
theorem c6_metadata_last_wins (dec : Decoder) (chunks : List (List Char))
    (h : 2 ≤ (lineMetasOf dec chunks.flatten).length) :
    (transcode dec chunks).meta = (lineMetasOf dec chunks.flatten).getLast? := by
  rw [transcode_meta]
  rcases hl : (lineMetasOf dec chunks.flatten).getLast? with _ | m
  · rw [List.getLast?_eq_none_iff] at hl
    rw [hl] at h
    simp at h
  · simp [lastOr, hl]

theorem c6_metadata_last_wins_witness :
    2 ≤ (lineMetasOf decEx ([("data: M1\ndata: M2\n").data] : List (List Char)).flatten).length ∧
      (transcode decEx [("data: M1\ndata: M2\n").data]).meta =
        (lineMetasOf decEx ([("data: M1\ndata: M2\n").data] : List (List Char)).flatten).getLast? :=
  ⟨by decide, c6_metadata_last_wins decEx [("data: M1\ndata: M2\n").data] (by decide)⟩

/-- C7: a final portion of input not terminated by a newline stays in the
carry-over buffer when the stream ends: the transcoder state equals the
state reached by the newline-terminated prefix alone, with only the buffer
holding the tail — so the tail is never parsed and its text never emitted,
even when it is a complete well-formed payload record. -/
theorem c7_unterminated_tail_never_emitted (dec : Decoder) (content tail : List Char)
    (h : '\n' ∉ tail) :
    transcode dec [content ++ '\n' :: tail] =
      { transcode dec [content ++ [('\n' : Char)]] with buffer := tail } := by
  have h1 : content ++ '\n' :: tail = (content ++ ['\n']) ++ tail := by simp
  have h2 : ∀ x : List Char, transcode dec [x] = feedChunk dec initState x := by
    intro x
    simp [transcode]
  rw [h2, h2, h1, ← feedChunk_append]
  refine feedChunk_noNl dec _ tail ?_ h
  rw [feedChunk_buffer]
  simpa [initState] using splitCR_terminal_nl content

theorem c7_unterminated_tail_never_emitted_witness :
    ('\n' ∉ (("data: A").data)) ∧
      transcode decEx [("data: A").data ++ '\n' :: ("data: A").data] =
        { transcode decEx [("data: A").data ++ [('\n' : Char)]] with
            buffer := ("data: A").data } :=
  ⟨by decide,
   c7_unterminated_tail_never_emitted decEx (("data: A").data) (("data: A").data)
     (by decide)⟩

/-- C9: on a relay invocation whose upstream stream completes without any
payload record carrying grounding metadata, no footer is appended: the
text streamed to the caller is exactly the concatenation of the emitted
text deltas. -/
theorem c9_no_metadata_no_footer (f : String → Outcome) (models : List String)
    (dec : Decoder) (chunks : List (List Char)) (w : String)
    (hw : (dispatch f models).winner = some w)
    (h : lineMetasOf dec chunks.flatten = []) :
    emittedText (relayTrace f models dec (chunks.map UpEv.chunk)) =
      (transcode dec chunks).out.flatten := by
  have hmeta : (transcode dec chunks).meta = none := by
    rw [transcode_meta, h]
    rfl
  unfold relayTrace
  rw [hw, runBody_chunks dec chunks initState]
  show emittedText ((List.map CtrlAct.emit (transcode dec chunks).out ++
    List.map CtrlAct.emit (footerEmit (transcode dec chunks).meta)) ++ [CtrlAct.close]) = _
  rw [hmeta]
  simp [footerEmit, emittedText_append, emittedText_map_emit, emittedText]

theorem c9_no_metadata_no_footer_witness :
    (dispatch fOk geminiModels).winner = some ("gemini-2.0-flash" : String) ∧
      lineMetasOf decEx ([("data: A\n").data] : List (List Char)).flatten = [] ∧
      emittedText (relayTrace fOk geminiModels decEx
          (([("data: A\n").data] : List (List Char)).map UpEv.chunk)) =
        (transcode decEx [("data: A\n").data]).out.flatten :=
  ⟨by decide, by decide,
   c9_no_metadata_no_footer fOk geminiModels decEx [("data: A\n").data]
     ("gemini-2.0-flash") (by decide) (by decide)⟩

/-! ## Claims about the dispatcher and the whole invocation -/

/-- C5: on every exit path of a relay invocation — dispatcher exhaustion
before any content, successful stream completion, and an error raised
mid-stream after content has been emitted — the output stream is closed
exactly once, and the close is the final action, so nothing is emitted
after it. -/
theorem c5_closed_exactly_once (f : String → Outcome) (models : List String)
    (dec : Decoder) (events : List UpEv) :
    closeCount (relayTrace f models dec events) = 1 ∧
      (relayTrace f models dec events).getLast? = some CtrlAct.close := by
  constructor
  · unfold relayTrace
    rw [closeCount_append]
    rcases (dispatch f models).winner with _ | w
    · rfl
    · rcases h : runBody dec initState events with ⟨st, e⟩
      rcases e with _ | m <;>
        simp [closeCount_append, closeCount_map_emit, closeCount]
  · unfold relayTrace
    exact List.getLast?_concat _

/-- C3: when every candidate fails with a retryable status (429, 404 or
503), the dispatcher attempts every candidate exactly once in list order,
and the single chunk emitted to the caller is the aggregated failure
message that lists every attempt's model identifier and status,
pipe-delimited, followed by the close. -/
theorem c3_all_retryable_aggregated (f : String → Outcome) (models : List String)
    (stf : String → Nat) (bdf : String → List Char) (dec : Decoder)
    (events : List UpEv) (hne : models ≠ [])
    (h : ∀ x ∈ models, f x = Outcome.httpErr (stf x) (bdf x) ∧
      retryableStatus (stf x) = true) :
    (dispatch f models).attempted = models ∧
      relayTrace f models dec events =
        [CtrlAct.emit ((("❌ Error: ").data) ++
           aggErrorMsg (models.map (fun x => attemptErrorMsg x (stf x) (bdf x)))),
         CtrlAct.close] := by
  obtain ⟨m, rest, rfl⟩ := List.exists_cons_of_ne_nil hne
  have hd : dispatch f (m :: rest) =
      ⟨m :: rest, none,
       some (aggErrorMsg
         ((m :: rest).map (fun x => attemptErrorMsg x (stf x) (bdf x))))⟩ := by
    unfold dispatch
    rw [dispatchGo_all_retryable f (m :: rest) stf bdf rest m [] [] none h]
    simp
  refine ⟨by rw [hd], ?_⟩
  unfold relayTrace
  rw [hd]
  simp [failMessage, aggErrorMsg_ne_nil]

theorem c3_all_retryable_aggregated_witness :
    (dispatch f429 geminiModels).attempted = geminiModels ∧
      relayTrace f429 geminiModels decNone [] =
        [CtrlAct.emit ((("❌ Error: ").data) ++
           aggErrorMsg (geminiModels.map
             (fun x => attemptErrorMsg x 429 (("rate").data)))),
         CtrlAct.close] :=
  c3_all_retryable_aggregated f429 geminiModels (fun _ => 429)
    (fun _ => ("rate").data) decNone [] (by decide) (by decide)

/-- C1: code behavior at the failing input.  With the fixed model list,
the first candidate returning HTTP 500 — a non-retryable status — does not
stop the dispatcher: the `throw lastError` at route.ts:122 is caught by
the surrounding per-candidate `catch` (route.ts:124), which `break`s only
on the last candidate, so the loop proceeds and the second candidate is
attempted and wins.  This refutes the stated stop-immediately behavior. -/
theorem c1_nonretryable_does_not_stop :
    (dispatch f500 geminiModels).winner =
        some ("gemini-2.0-flash-thinking-exp-01-21" : String) ∧
      (dispatch f500 geminiModels).attempted =
        [("gemini-2.0-flash" : String),
         ("gemini-2.0-flash-thinking-exp-01-21" : String)] := by
  constructor <;> rfl

/-! ## Claims about the footer numbering -/

/-- C4 counterexample: with a captured metadata whose grounding chunks are
a web-less chunk followed by a web-bearing one, the synthesized listing is
`*   [2] [T](U)` — it does not number the references consecutively from 1
as the claim states (the spec-faithful listing would be `*   [1] [T](U)`). -/
theorem c4_counterexample_nonconsecutive :
    refsBlockGo 0 [⟨none⟩, ⟨some ⟨("T").data, ("U").data⟩⟩] ≠
      specRefsBlock [⟨none⟩, ⟨some ⟨("T").data, ("U").data⟩⟩] := by
  decide

/-- C4 (amended): the reference-sources listing contains one line
`[n] [title](uri)` for each captured grounding chunk that carries web
info, in capture order, where `n` is 1 plus the chunk's position in the
captured array — so chunks without web info are skipped but still consume
a number, and numbering is consecutive from 1 only when every captured
chunk carries web info. -/
theorem c4_numbering_by_position (cs : List GChunk) :
    refsBlockGo 0 cs =
      ((cs.enum).filterMap
        (fun p => p.2.web.map (fun w => refLine (p.1 + 1) w))).flatten := by
  have key : ∀ (l : List GChunk) (i : Nat),
      refsBlockGo i l =
        ((List.enumFrom i l).filterMap
          (fun p => p.2.web.map (fun w => refLine (p.1 + 1) w))).flatten := by
    intro l
    induction l with
    | nil => intro i; rfl
    | cons c rest ih =>
      intro i
      rcases hw : c.web with _ | w <;>
        simp [refsBlockGo, List.enumFrom, List.filterMap_cons, hw, ih (i + 1)]
  exact key cs 0

/-! ## Claims about the HTTP operation -/

/-- C8 counterexample: with the credential present in the environment but
set to the empty string, the operation still returns the structured JSON
error — refuting the claimed "if and only if the credential is absent". -/
theorem c8_counterexample_empty_credential :
    isJsonError (POST (some ("" : String)) fOk decNone []) = true ∧
      some ("" : String) ≠ (none : Option String) :=
  ⟨rfl, by decide⟩

/-- C8 (amended): the operation returns the structured JSON error exactly
when the credential is absent or set to the empty string (JavaScript
falsiness of `process.env.GEMINI_API_KEY`); in that case the response is
computed before and independently of any upstream activity or stream
event, and otherwise the operation returns the streamed text body. -/
theorem c8_error_iff_falsy_credential (apiKey : Option String)
    (f fa : String → Outcome) (dec deca : Decoder) (events eventsa : List UpEv) :
    (isJsonError (POST apiKey f dec events) = true ↔
        (apiKey = none ∨ apiKey = some ("" : String))) ∧
      (keyFalsy apiKey = true → POST apiKey f dec events = POST apiKey fa deca eventsa) ∧
      (keyFalsy apiKey = false →
        POST apiKey f dec events =
          PostResult.streamBody (relayTrace f geminiModels dec events)) := by
  refine ⟨?_, fun h => by simp [POST, h], fun h => by simp [POST, h]⟩
  cases apiKey with
  | none => simp [POST, keyFalsy, isJsonError]
  | some s =>
    by_cases hs : s = ""
    · subst hs
      simp [POST, keyFalsy, isJsonError]
    · simp [POST, keyFalsy, isJsonError, hs]

theorem c8_error_iff_falsy_credential_witness :
    POST (some ("k" : String)) fOk decNone [] =
      PostResult.streamBody (relayTrace fOk geminiModels decNone []) :=
  (c8_error_iff_falsy_credential (some ("k" : String)) fOk fOk decNone decNone
    [] []).2.2 (by decide)

/-! ## Claim about outbound request construction -/

/-- C10: the request body is identical for every candidate model; the new
prompt is always sent as the final content with the fixed multi-line
instruction appended to its text — never the caller's prompt verbatim,
since the appended instruction is nonempty — together with the fixed
system-instruction string and the search-tool flag. -/
theorem c10_prompt_always_wrapped (baseUrl apiKey message : String)
    (history : List ChatMsg) (m1 m2 : String) :
    (attemptRequest baseUrl apiKey message history m1).body =
        (attemptRequest baseUrl apiKey message history m2).body ∧
      (buildContents message history).getLast? =
        some ⟨("user" : String), message ++ promptExtra⟩ ∧
      message ++ promptExtra ≠ message ∧
      (requestBody message history).systemInstruction = systemInstructionText ∧
      (requestBody message history).googleSearchTool = true := by
  refine ⟨rfl, ?_, ?_, rfl, rfl⟩
  · unfold buildContents
    exact List.getLast?_concat _
  · intro hEq
    have hlen := congrArg String.length hEq
    rw [String.length_append] at hlen
    have hp : 0 < promptExtra.length := by decide
    omega

theorem c10_prompt_always_wrapped_witness :
    (attemptRequest ("b") ("k") ("hi") [] ("m1")).body =
        (attemptRequest ("b") ("k") ("hi") [] ("m2")).body ∧
      (buildContents ("hi") []).getLast? =
        some ⟨("user" : String), ("hi" : String) ++ promptExtra⟩ ∧
      ("hi" : String) ++ promptExtra ≠ ("hi" : String) ∧
      (requestBody ("hi") []).systemInstruction = systemInstructionText ∧
      (requestBody ("hi") []).googleSearchTool = true :=
  c10_prompt_always_wrapped ("b") ("k") ("hi") [] ("m1") ("m2")
